import Mathlib

/-!
Verification development for the Enhanced Calculator repository.

The Python sources under `src/app` are shallowly embedded here:

* `app/exceptions.py`   → `PyExc` together with `PyExc.isCalculatorError`
  (the flag reflects membership in the `CalculatorError` hierarchy; the
  values of the `decimal` module's exceptions are modelled as the two
  non-calculator constructors).
* `app/operations.py`   → `Op`, `Op.apply`, `OPERATION_MAP`, `get_operation`.
* `app/calculator_config.py` → `Config` (the fields the engine reads).
* `app/calculator_memento.py` → mementos are immutable snapshots of the
  history list; in Lean, `List HistoryItem` already has value semantics,
  so a memento is embedded as the snapshotted list itself, and the
  caretaker's two stacks are the `undoStack`/`redoStack` fields below.
* `app/calculator.py`   → `Calculator`, `Calculator.round (_round)`,
  `computeValue`, `calculate`, `undo`, `redo`, `clear`, `loadHistory`,
  `notifyAll`.

Numbers: Python `Decimal` values are embedded as rationals (`ℚ`), and
the decimal context's arithmetic is modelled faithfully: every context
operation (`+`, `-`, `*`, `/`, integer `**`, `abs`) rounds its exact
result to the context precision (`ctxPrec`, 28 significant digits here)
with the default `ROUND_HALF_EVEN` rounding — `ctxRound` below — before
returning it; `//` and `%` return exact results but signal
`InvalidOperation` when the integer quotient needs more digits than the
precision; and the final `quantize` in `Calculator._round` raises
`decimal.InvalidOperation` when the half-up-rounded result needs more
significant digits than the precision.  The inexact decimal power
primitive used for non-integer exponents (`root`, fractional `power`) is
an approximation algorithm; it is abstracted as an explicit parameter
`pw` threaded through the definitions, so every theorem below holds for
an arbitrary such primitive.

Side effects: observers are embedded as update functions returning
`Except PyExc Unit`; every mutating engine entry point returns, besides
its result and the new state, the list of observer-update outcomes it
dispatched (`notifyAll` events).  File writes (logging, auto-save CSV)
happen in the Python code only inside observer `update` bodies, so "no
notification was dispatched" is the embedded form of "no log line and no
persistence write happened".  The filesystem read by `load_history` is
passed in as an `Option (List HistoryItem)` (`none` = the path does not
exist).
-/

namespace EnhancedCalc

/-- Embedded Python exception values.  `validationError` and
`operationError` are the two subclasses of `CalculatorError` from
`app/exceptions.py`; `decInvalidOperation` and `decDivisionByZero` are
`decimal.InvalidOperation` and `decimal.DivisionByZero`, which are *not*
part of the calculator hierarchy; `runtimeError` stands for an arbitrary
exception raised by an observer. -/
inductive PyExc where
  | validationError (msg : String)
  | operationError (msg : String)
  | decInvalidOperation
  | decDivisionByZero
  | runtimeError (msg : String)
  deriving DecidableEq, Repr

/-- Membership in the typed `CalculatorError` hierarchy of
`app/exceptions.py` (this is what `except CalculatorError` in
`src/main.py` catches). -/
def PyExc.isCalculatorError : PyExc → Bool
  | .validationError _ => true
  | .operationError _ => true
  | _ => false

/-- Runtime configuration fields read by the engine
(`app/calculator_config.py`): `CONFIG.precision` (fractional digits),
`CONFIG.max_history_size`, `CONFIG.auto_save`.  `Config.load` validates
`precision > 0` and `max_history_size > 0`; theorems take these as
hypotheses where they matter. -/
structure Config where
  precision : Nat
  maxHistorySize : Nat
  autoSave : Bool
  deriving DecidableEq, Repr

/-- Decimal context precision set at import time in `app/calculator.py`:
`getcontext().prec = max(CONFIG.precision + 2, 28)`. -/
def ctxPrec (cfg : Config) : Nat :=
  max (cfg.precision + 2) 28

/-- Integer coefficient of rounding `x` half-up (ties away from zero, as
`decimal.ROUND_HALF_UP`) to `p` fractional digits: the result is
`roundHalfUpInt p x / 10^p`. -/
def roundHalfUpInt (p : Nat) (x : ℚ) : ℤ :=
  if 0 ≤ x then ⌊x * 10 ^ p + 1 / 2⌋ else -⌊(-x) * 10 ^ p + 1 / 2⌋

/-- Value of `x` rounded half-up to `p` fractional digits. -/
def roundHalfUp (p : Nat) (x : ℚ) : ℚ :=
  (roundHalfUpInt p x : ℚ) / 10 ^ p

/-- Round-to-nearest with ties to even (`ROUND_HALF_EVEN`), the rounding
mode of the default decimal context, used by every context arithmetic
operation when its exact result needs more digits than the context
precision. -/
def roundHalfEven (y : ℚ) : ℤ :=
  if y - ⌊y⌋ < 1 / 2 then ⌊y⌋
  else if 1 / 2 < y - ⌊y⌋ then ⌊y⌋ + 1
  else if ⌊y⌋ % 2 = 0 then ⌊y⌋ else ⌊y⌋ + 1

/-- Decimal exponent of a nonzero rational: the unique `e` with
`10 ^ (e - 1) ≤ |x| < 10 ^ e`, computed from the decimal logarithms of
the numerator and the denominator (which bracket `e` to two candidates,
settled by one comparison). -/
def sigExp (x : ℚ) : ℤ :=
  if (10 : ℚ) ^ ((Nat.log 10 x.num.natAbs : ℤ) - (Nat.log 10 x.den : ℤ)) ≤ |x|
  then (Nat.log 10 x.num.natAbs : ℤ) - (Nat.log 10 x.den : ℤ) + 1
  else (Nat.log 10 x.num.natAbs : ℤ) - (Nat.log 10 x.den : ℤ)

/-- Rounding of a context arithmetic result: `x` rounded half-even to
`ctxPrec cfg` significant digits, exactly as the decimal context rounds
the outcome of every arithmetic operation before returning it. -/
def ctxRound (cfg : Config) (x : ℚ) : ℚ :=
  if x = 0 then 0
  else
    (roundHalfEven (x * 10 ^ ((ctxPrec cfg : ℤ) - sigExp x)) : ℚ) /
      10 ^ ((ctxPrec cfg : ℤ) - sigExp x)

/-- Truncation toward zero, the rounding used by `Decimal.__floordiv__`
and (via the identity `a % b = a - b * (a // b)` of truncated division)
by `Decimal.__mod__`. -/
def truncQ (x : ℚ) : ℤ :=
  if 0 ≤ x then ⌊x⌋ else -⌊-x⌋

/-- Result of the decimal power primitive `a ** b` at the calculator's
interface, with `pw` the abstract approximation algorithm used for a
positive base and non-integer exponent.  Special cases follow the
`decimal` module: `0 ** 0` raises `InvalidOperation`; `0 ** negative`
yields `Infinity`, which the subsequent `quantize` in `Calculator._round`
turns into `InvalidOperation` — the embedding raises it here, which is
observably the same at every use site since no state is mutated in
between; a negative base with a non-integer exponent raises
`InvalidOperation`; an integer-exponent power is computed exactly and
then rounded to the context precision. -/
def decPow (pw : ℚ → ℚ → ℚ) (cfg : Config) (a b : ℚ) : Except PyExc ℚ :=
  if b.den = 1 then
    if a = 0 then
      if b.num = 0 then .error .decInvalidOperation
      else if b.num < 0 then .error .decInvalidOperation
      else .ok 0
    else .ok (ctxRound cfg (a ^ b.num))
  else
    if a < 0 then .error .decInvalidOperation
    else if a = 0 then
      if b < 0 then .error .decInvalidOperation else .ok 0
    else .ok (pw a b)

/-- Operation tags, one per concrete `Operation` subclass in
`app/operations.py`. -/
inductive Op where
  | add | subtract | multiply | divide | power | root
  | modulus | int_divide | percent | abs_diff
  deriving DecidableEq, Repr

/-- Embedded `Operation.apply` bodies from `app/operations.py`.  The
shared validator `_num` accepts every `int`/`float`/`Decimal`; the
embedded operand domain is `ℚ`, on which `_num` is the identity, so its
`ValidationError` branch is unreachable here.  Each context operation
rounds its result to the context precision (`ctxRound`); the remainder
and integer-divide operations are exact but signal `InvalidOperation`
(`DivisionImpossible`) when the integer quotient needs more digits than
the precision; `percent` performs two context operations (`/`, then
`* 100`), each rounded.  Error messages are the source's literals. -/
def Op.apply (pw : ℚ → ℚ → ℚ) (cfg : Config) : Op → ℚ → ℚ → Except PyExc ℚ
  | .add, a, b => .ok (ctxRound cfg (a + b))
  | .subtract, a, b => .ok (ctxRound cfg (a - b))
  | .multiply, a, b => .ok (ctxRound cfg (a * b))
  | .divide, a, b =>
      if b = 0 then .error (.validationError "Division by zero is not allowed")
      else .ok (ctxRound cfg (a / b))
  | .power, a, b => decPow pw cfg a b
  | .root, a, b =>
      if b = 0 then .error (.validationError "Root degree cannot be zero")
      else decPow pw cfg a (ctxRound cfg (1 / b))
  | .modulus, a, b =>
      if b = 0 then .error .decInvalidOperation
      else if 10 ^ ctxPrec cfg ≤ (truncQ (a / b)).natAbs then
        .error .decInvalidOperation
      else .ok (a - b * (truncQ (a / b) : ℚ))
  | .int_divide, a, b =>
      if b = 0 then .error (.validationError "Division by zero is not allowed")
      else if 10 ^ ctxPrec cfg ≤ (truncQ (a / b)).natAbs then
        .error .decInvalidOperation
      else .ok ((truncQ (a / b) : ℚ))
  | .percent, a, b =>
      if b = 0 then
        .error (if a = 0 then .decInvalidOperation else .decDivisionByZero)
      else .ok (ctxRound cfg (ctxRound cfg (a / b) * 100))
  | .abs_diff, a, b => .ok |ctxRound cfg (a - b)|

/-- The `_OPERATION_MAP` registry of `app/operations.py`. -/
def OPERATION_MAP : List (String × Op) :=
  [("add", .add), ("subtract", .subtract), ("multiply", .multiply),
   ("divide", .divide), ("power", .power), ("root", .root),
   ("modulus", .modulus), ("int_divide", .int_divide),
   ("percent", .percent), ("abs_diff", .abs_diff)]

/-- Python `str.lower()`, embedded as a character-wise lowercase (the
two agree on the ASCII operation names involved here). -/
def lowerName (s : String) : String :=
  ⟨s.data.map Char.toLower⟩

/-- Embedded `get_operation`: case-insensitive lookup
(`_OPERATION_MAP.get(name.lower())`), raising `OperationError` on an
unknown name. -/
def get_operation (name : String) : Except PyExc Op :=
  match OPERATION_MAP.lookup (lowerName name) with
  | some op => .ok op
  | none => .error (.operationError ("Unknown operation " ++ name))

/-- Decidable equality of embedded call outcomes, so that concrete runs
can be settled by `decide`. -/
instance instDecEqExcept {e a : Type} [DecidableEq e] [DecidableEq a] :
    DecidableEq (Except e a) := fun x y =>
  match x, y with
  | .ok u, .ok v =>
    if h : u = v then .isTrue (by rw [h]) else .isFalse (by simp [h])
  | .error u, .error v =>
    if h : u = v then .isTrue (by rw [h]) else .isFalse (by simp [h])
  | .ok _, .error _ => .isFalse (by simp)
  | .error _, .ok _ => .isFalse (by simp)

/-- One entry of the history log: the `HistoryItem` tuple
`(operation, a, b, result, timestamp)` of `app/calculator_memento.py`.
Timestamps (`datetime.now()`) are embedded as abstract clock ticks. -/
structure HistoryItem where
  op : String
  a : ℚ
  b : ℚ
  result : ℚ
  ts : Nat
  deriving DecidableEq, Repr

/-- An observer: its `update` body, which may raise an arbitrary
exception.  The Python `update(self, calculator, item)` receives the
calculator as well; the embedding tracks what an update *does* to the
outside world only through its dispatch outcome, so only the notified
item is passed.  `AutoSaveObserver.update` (the only caller of
`save_history` besides the explicit REPL `save` command) and
`LoggingObserver.update` (the only log writer) both run exclusively
through these update calls. -/
structure Observer where
  update : HistoryItem → Except PyExc Unit

/-- The engine state: the fields of the `Calculator` instance —
`_history`, the caretaker's `_undo` and `_redo` stacks (top of stack at
the head), and `_observers`.  A memento is the snapshotted history list
itself (`CalculatorMemento(tuple(self._history))`); Lean lists are
immutable values, which gives the memento pattern's isolation invariant
by construction. -/
structure Calculator where
  history : List HistoryItem
  undoStack : List (List HistoryItem)
  redoStack : List (List HistoryItem)
  observers : List Observer

/-- A freshly constructed `Calculator()` with the given observer list
(the constructor registers a `LoggingObserver` and, when
`CONFIG.auto_save` holds, an `AutoSaveObserver`; the embedding keeps the
list abstract so theorems cover every such configuration). -/
def newCalculator (obs : List Observer) : Calculator :=
  ⟨[], [], [], obs⟩

/-- Embedded `Calculator._round`: `val.quantize(10 ** -precision,
ROUND_HALF_UP)`.  `quantize` raises `decimal.InvalidOperation` when the
rounded result's coefficient needs more digits than the context
precision, i.e. when `|roundHalfUpInt precision val| ≥ 10 ^ ctxPrec`. -/
def Calculator.round (cfg : Config) (val : ℚ) : Except PyExc ℚ :=
  let n := roundHalfUpInt cfg.precision val
  if 10 ^ ctxPrec cfg ≤ n.natAbs then .error .decInvalidOperation
  else .ok ((n : ℚ) / 10 ^ cfg.precision)

/-- The value-computing prefix of `Calculator.calculate`:
`op = get_operation(op_name); result = self._round(op.apply(a, b))`.
It reads no engine state. -/
def computeValue (pw : ℚ → ℚ → ℚ) (cfg : Config) (name : String)
    (a b : ℚ) : Except PyExc ℚ :=
  match get_operation name with
  | .error e => .error e
  | .ok op =>
    match Op.apply pw cfg op a b with
    | .error e => .error e
    | .ok raw => Calculator.round cfg raw

/-- Embedded `Calculator._notify`: iterate over a copy of the observer
list, invoking each `update` inside `try/except Exception`, so an
observer's exception is recorded (logged) but never propagated and never
stops the iteration.  The returned list is the per-observer outcome of
its `update` call, in registration order. -/
def notifyAll (obs : List Observer) (item : HistoryItem) :
    List (Except PyExc Unit) :=
  obs.map fun o => o.update item

/-- Outcome of one engine entry point: the returned value (or the
exception that propagated to the caller), the engine state after the
call, and the observer-update outcomes dispatched during the call. -/
structure CalcResult where
  ret : Except PyExc ℚ
  state : Calculator
  notified : List (Except PyExc Unit)

/-- Embedded `CalculatorCaretaker.push_undo` applied to the engine:
append the snapshot to the undo stack and clear the redo stack
("new action invalidates redo history"). -/
def pushUndo (c : Calculator) (snapshot : List HistoryItem) : Calculator :=
  { c with undoStack := snapshot :: c.undoStack, redoStack := [] }

/-- The history cap of `Calculator.calculate`: `if len(self._history) >
CONFIG.max_history_size: self._history.pop(0)` — one oldest record is
evicted when the configured maximum is exceeded. -/
def trimIf (cfg : Config) (h : List HistoryItem) : List HistoryItem :=
  if h.length > cfg.maxHistorySize then h.drop 1 else h

/-- Embedded `Calculator.calculate`.  Order as in the source: resolve and
apply the operation and round (any exception propagates before any
mutation); push the pre-state snapshot via `push_undo` (clearing redo);
append the new item; evict the oldest item when the history exceeds
`CONFIG.max_history_size`; notify observers; return the rounded
result. -/
def calculate (pw : ℚ → ℚ → ℚ) (cfg : Config) (c : Calculator)
    (name : String) (a b : ℚ) (ts : Nat) : CalcResult :=
  match computeValue pw cfg name a b with
  | .error e => ⟨.error e, c, []⟩
  | .ok result =>
    let c1 := pushUndo c c.history
    let item : HistoryItem := ⟨name, a, b, result, ts⟩
    ⟨.ok result, { c1 with history := trimIf cfg (c1.history ++ [item]) },
     notifyAll c.observers item⟩

/-- Embedded `Calculator.undo`: pop the undo stack (reporting `false`
when empty), push the current history onto the redo stack, restore the
popped snapshot.  No observer notification takes place. -/
def undo (c : Calculator) : Bool × Calculator × List (Except PyExc Unit) :=
  match c.undoStack with
  | [] => (false, c, [])
  | m :: rest =>
    (true,
     { c with history := m, undoStack := rest,
              redoStack := c.history :: c.redoStack },
     [])

/-- Embedded `Calculator.redo`: pop the redo stack (reporting `false`
when empty), push the current history back onto the undo stack via
`CalculatorCaretaker.push_undo` — which *clears the remaining redo
entries* — then restore the popped snapshot.  No observer notification
takes place. -/
def redo (c : Calculator) : Bool × Calculator × List (Except PyExc Unit) :=
  match c.redoStack with
  | [] => (false, c, [])
  | m :: _rest =>
    (true,
     { c with history := m, undoStack := c.history :: c.undoStack,
              redoStack := [] },
     [])

/-- Embedded `Calculator.clear`: when the history is non-empty, push a
pre-clear snapshot via `push_undo` (clearing redo); then empty the
history.  No observer notification takes place. -/
def clear (c : Calculator) : Calculator × List (Except PyExc Unit) :=
  if c.history = [] then ({ c with history := [] }, [])
  else ({ c with history := [], undoStack := c.history :: c.undoStack,
                 redoStack := [] }, [])

/-- Embedded `Calculator.load_history`.  The filesystem is passed in:
`fileRows = none` models `target.exists()` being false, on which the
method returns with the engine untouched; `some rows` models a readable
CSV whose decoded records are `rows` (the pandas decode is idealised as
the already-parsed record list — only the existence branch matters to
the claims below), on which `_history` is replaced wholesale.  The undo
and redo stacks are not touched on either branch. -/
def loadHistory (fileRows : Option (List HistoryItem)) (c : Calculator) :
    Calculator :=
  match fileRows with
  | none => c
  | some rows => { c with history := rows }

/-- One requested computation: the arguments of a `calculate` call. -/
structure CalcInput where
  name : String
  a : ℚ
  b : ℚ
  ts : Nat

/-- Run a sequence of `calculate` calls, threading the engine state (a
failed call leaves the state unchanged, as `calculate` guarantees). -/
def runAll (pw : ℚ → ℚ → ℚ) (cfg : Config) (c : Calculator) :
    List CalcInput → Calculator
  | [] => c
  | i :: rest => runAll pw cfg (calculate pw cfg c i.name i.a i.b i.ts).state rest

/-- The history record a successful `calculate` call on input `i`
produces (the result slot is the rounded value; it is only meaningful
when `computeValue` succeeds on `i`). -/
def mkItem (pw : ℚ → ℚ → ℚ) (cfg : Config) (i : CalcInput) : HistoryItem :=
  ⟨i.name, i.a, i.b, (computeValue pw cfg i.name i.a i.b).toOption.getD 0, i.ts⟩

/-- Specification-side definition of the exact mathematical result of
each operation, written from the spec (section 8: "compute result equals
the mathematical result rounded half-up to configured precision";
section 4.1 lists the operations).  The value domain of the embedding is
the rationals, so the definition is partial: `none` marks the cases
where the spec's exact mathematical value is not a rational number (nth
roots and fractional powers) or does not exist (division by zero, zero
to a non-positive power).  Used only to compare the source-side
`Op.apply` against the spec's words. -/
def specExactResult : Op → ℚ → ℚ → Option ℚ
  | .add, a, b => some (a + b)
  | .subtract, a, b => some (a - b)
  | .multiply, a, b => some (a * b)
  | .divide, a, b => if b = 0 then none else some (a / b)
  | .power, a, b =>
      if b.den = 1 ∧ (a ≠ 0 ∨ 0 < b.num) then some (a ^ b.num) else none
  | .root, _, _ => none
  | .modulus, a, b => if b = 0 then none else some (a - b * (truncQ (a / b) : ℚ))
  | .int_divide, a, b => if b = 0 then none else some ((truncQ (a / b) : ℚ))
  | .percent, a, b => if b = 0 then none else some (a / b * 100)
  | .abs_diff, a, b => some |a - b|

/-- Exactness of the decimal context's computation of `op` on `(a, b)`:
every context-rounded intermediate equals its exact rational value and
no capacity signal fires, spelled out per operation (for `percent` both
the quotient and the scaled quotient; for `modulus`/`int_divide` the
integer quotient fits in the context precision).  Under this condition
the program's raw result coincides with the spec's exact mathematical
result; outside it the context rounding makes the raw result deviate
from the exact one (the double-rounding caveat). -/
def ctxExactOn (cfg : Config) : Op → ℚ → ℚ → Prop
  | .add, a, b => ctxRound cfg (a + b) = a + b
  | .subtract, a, b => ctxRound cfg (a - b) = a - b
  | .multiply, a, b => ctxRound cfg (a * b) = a * b
  | .divide, a, b => ctxRound cfg (a / b) = a / b
  | .power, a, b => ctxRound cfg (a ^ b.num) = a ^ b.num
  | .root, _, _ => False
  | .modulus, a, b => (truncQ (a / b)).natAbs < 10 ^ ctxPrec cfg
  | .int_divide, a, b => (truncQ (a / b)).natAbs < 10 ^ ctxPrec cfg
  | .percent, a, b =>
      ctxRound cfg (a / b) = a / b ∧ ctxRound cfg (a / b * 100) = a / b * 100
  | .abs_diff, a, b => ctxRound cfg (a - b) = a - b

/-- An arbitrary concrete instantiation of the abstract inexact power
primitive, used to instantiate universally quantified theorems at
concrete inputs. -/
def pw0 : ℚ → ℚ → ℚ := fun _ _ => 0

/-- The default configuration values (`CALCULATOR_PRECISION=4`,
`CALCULATOR_MAX_HISTORY_SIZE=1000`, `CALCULATOR_AUTO_SAVE=true`). -/
def cfg0 : Config :=
  ⟨4, 1000, true⟩

/-- An observer whose `update` always raises (`raise RuntimeError`), as
in the repository test `test_observer_exception_does_not_break_flow`. -/
def badObs : Observer :=
  ⟨fun _ => .error (.runtimeError "boom")⟩

/-- An engine with the failing observer registered. -/
def cBad : Calculator :=
  ⟨[], [], [], [badObs]⟩

/-- An engine holding one previous record, used to instantiate
hypotheses about non-empty histories. -/
def cSub : Calculator :=
  ⟨[⟨"subtract", 10, 3, 7, 0⟩], [], [], []⟩

/-- An engine with prior history, used for the load-on-missing-path
scenario. -/
def cPrior : Calculator :=
  ⟨[⟨"add", 1, 1, 2, 0⟩], [], [], []⟩

/-- First step of the undo/redo scenario: `calculate("add", 1, 1)` on a
fresh engine. -/
def calcStepA : CalcResult :=
  calculate pw0 cfg0 (newCalculator []) "add" 1 1 0

/-- Second step: `calculate("add", 2, 2)`. -/
def calcStepB : CalcResult :=
  calculate pw0 cfg0 calcStepA.state "add" 2 2 1

/-- First undo of the scenario. -/
def undoStep1 : Bool × Calculator × List (Except PyExc Unit) :=
  undo calcStepB.state

/-- Second undo. -/
def undoStep2 : Bool × Calculator × List (Except PyExc Unit) :=
  undo undoStep1.2.1

/-- First redo. -/
def redoStep1 : Bool × Calculator × List (Except PyExc Unit) :=
  redo undoStep2.2.1

/-- Second redo. -/
def redoStep2 : Bool × Calculator × List (Except PyExc Unit) :=
  redo redoStep1.2.1

/-- A concrete two-call input sequence. -/
def inputs2 : List CalcInput :=
  [⟨"add", 1, 1, 0⟩, ⟨"add", 2, 2, 1⟩]

/-!
Helper lemmas about the embedded engine.
-/

/-- When the value computation fails, `calculate` propagates that very
exception, leaves the engine untouched and dispatches nothing. -/
theorem calculate_error_frame (pw : ℚ → ℚ → ℚ) (cfg : Config)
    (c : Calculator) (name : String) (a b : ℚ) (ts : Nat) (e : PyExc)
    (h : computeValue pw cfg name a b = .error e) :
    calculate pw cfg c name a b ts = ⟨.error e, c, []⟩ := by
  unfold calculate
  rw [h]

/-- When the value computation succeeds, `calculate` returns the value,
pushes the pre-state snapshot (clearing redo), appends the new record
(with cap eviction) and notifies every observer. -/
theorem calculate_ok_eq (pw : ℚ → ℚ → ℚ) (cfg : Config) (c : Calculator)
    (name : String) (a b : ℚ) (ts : Nat) (v : ℚ)
    (h : computeValue pw cfg name a b = .ok v) :
    calculate pw cfg c name a b ts =
      ⟨.ok v,
       ⟨trimIf cfg (c.history ++ [⟨name, a, b, v, ts⟩]),
        c.history :: c.undoStack, [], c.observers⟩,
       notifyAll c.observers ⟨name, a, b, v, ts⟩⟩ := by
  unfold calculate
  rw [h]
  rfl

/-- Value computation for `divide` with a zero divisor: the
`ValidationError` of `Divide.apply`. -/
theorem computeValue_divide_zero (pw : ℚ → ℚ → ℚ) (cfg : Config) (a : ℚ) :
    computeValue pw cfg "divide" a 0 =
      .error (.validationError "Division by zero is not allowed") := by
  unfold computeValue
  rw [show get_operation "divide" = .ok Op.divide from rfl]
  simp [Op.apply]

/-- Value computation for `int_divide` with a zero divisor: the
`ValidationError` of `IntDivide.apply`. -/
theorem computeValue_int_divide_zero (pw : ℚ → ℚ → ℚ) (cfg : Config) (a : ℚ) :
    computeValue pw cfg "int_divide" a 0 =
      .error (.validationError "Division by zero is not allowed") := by
  unfold computeValue
  rw [show get_operation "int_divide" = .ok Op.int_divide from rfl]
  simp [Op.apply]

/-- Value computation for `root` with a zero degree: the
`ValidationError` of `Root.apply`. -/
theorem computeValue_root_zero (pw : ℚ → ℚ → ℚ) (cfg : Config) (a : ℚ) :
    computeValue pw cfg "root" a 0 =
      .error (.validationError "Root degree cannot be zero") := by
  unfold computeValue
  rw [show get_operation "root" = .ok Op.root from rfl]
  simp [Op.apply]

/-- Value computation for `modulus` with a zero divisor: the `decimal`
module's `InvalidOperation`, raised by `Decimal.__mod__`. -/
theorem computeValue_modulus_zero (pw : ℚ → ℚ → ℚ) (cfg : Config) (a : ℚ) :
    computeValue pw cfg "modulus" a 0 = .error .decInvalidOperation := by
  unfold computeValue
  rw [show get_operation "modulus" = .ok Op.modulus from rfl]
  simp [Op.apply]

/-- Value computation for `percent` with a zero divisor: the `decimal`
module's `DivisionByZero` (or `InvalidOperation` for `0/0`), raised by
`Decimal.__truediv__`. -/
theorem computeValue_percent_zero (pw : ℚ → ℚ → ℚ) (cfg : Config) (a : ℚ) :
    computeValue pw cfg "percent" a 0 =
      .error (if a = 0 then .decInvalidOperation else .decDivisionByZero) := by
  unfold computeValue
  rw [show get_operation "percent" = .ok Op.percent from rfl]
  simp [Op.apply]

/-- Rounding an integer-valued rational to the context precision is the
identity: its floor equals itself and its fractional part is zero. -/
theorem roundHalfEven_intCast (z : ℤ) : roundHalfEven (z : ℚ) = z := by
  unfold roundHalfEven
  rw [Int.floor_intCast]
  norm_num

/-- Context rounding is the identity on integers that fit within the
context precision. -/
theorem ctxRound_intCast_of_lt (cfg : Config) (n : ℤ) (hn : n ≠ 0)
    (hfit : n.natAbs < 10 ^ ctxPrec cfg) :
    ctxRound cfg (n : ℚ) = (n : ℚ) := by
  have hq0 : ((n : ℚ)) ≠ 0 := Int.cast_ne_zero.mpr hn
  have hna0 : n.natAbs ≠ 0 := Int.natAbs_ne_zero.mpr hn
  set k := Nat.log 10 n.natAbs with hk
  have habs : |(n : ℚ)| = ((n.natAbs : ℤ) : ℚ) := by
    rw [Int.cast_natAbs]
    push_cast
    ring
  have hle : (10 : ℚ) ^ ((k : ℤ) - (0 : ℤ)) ≤ |(n : ℚ)| := by
    rw [habs, sub_zero, zpow_natCast]
    have h1 : (10 : ℕ) ^ k ≤ n.natAbs := Nat.pow_log_le_self 10 hna0
    exact_mod_cast h1
  have hsig : sigExp (n : ℚ) = (k : ℤ) + 1 := by
    unfold sigExp
    rw [Rat.num_intCast, Rat.den_intCast, Nat.log_one_right, ← hk]
    rw [if_pos (by exact_mod_cast hle)]
    push_cast
    ring
  have hklt : k < ctxPrec cfg := by
    have h1 : (10 : ℕ) ^ k ≤ n.natAbs := Nat.pow_log_le_self 10 hna0
    have h2 : (10 : ℕ) ^ k < 10 ^ ctxPrec cfg := lt_of_le_of_lt h1 hfit
    exact (Nat.pow_lt_pow_iff_right (by norm_num)).mp h2
  set m := ctxPrec cfg - (k + 1) with hm
  have hs : (ctxPrec cfg : ℤ) - ((k : ℤ) + 1) = (m : ℤ) := by
    rw [hm]
    omega
  unfold ctxRound
  rw [if_neg hq0, hsig, hs]
  have hzpow : ((10 : ℚ)) ^ ((m : ℕ) : ℤ) = ((10 ^ m : ℤ) : ℚ) := by
    rw [zpow_natCast]
    push_cast
    ring
  have hmul : (n : ℚ) * (10 : ℚ) ^ ((m : ℕ) : ℤ) = ((n * 10 ^ m : ℤ) : ℚ) := by
    rw [hzpow]
    push_cast
    ring
  rw [hmul, roundHalfEven_intCast, hzpow]
  have hpow0 : ((10 ^ m : ℤ) : ℚ) ≠ 0 := by positivity
  push_cast
  rw [mul_div_assoc, div_self (by positivity), mul_one]

/-- Concrete context rounding at the 31-digit integer `10 ^ 30 + 1`: the
context keeps 28 significant digits, rounding half-even down to
`10 ^ 30` (this is what `Decimal(10 ** 30) + Decimal(1)` returns). -/
theorem ctxRound_pow30 :
    ctxRound cfg0 (1000000000000000000000000000001 : ℚ) =
      1000000000000000000000000000000 := by
  rw [show (1000000000000000000000000000001 : ℚ) =
        (((10 : ℤ) ^ 30 + 1 : ℤ) : ℚ) by push_cast; norm_num]
  have hna : ((10 : ℤ) ^ 30 + 1 : ℤ).natAbs = 10 ^ 30 + 1 := by
    rw [show ((10 : ℤ) ^ 30 + 1 : ℤ) = (((10 : ℕ) ^ 30 + 1 : ℕ) : ℤ) by
          push_cast,
        Int.natAbs_ofNat]
  have hlog : Nat.log 10 ((10 : ℕ) ^ 30 + 1) = 30 :=
    Nat.log_eq_of_pow_le_of_lt_pow (by norm_num) (by norm_num)
  have hsig : sigExp (((10 : ℤ) ^ 30 + 1 : ℤ) : ℚ) = 31 := by
    unfold sigExp
    rw [Rat.num_intCast, Rat.den_intCast, Nat.log_one_right, hna, hlog]
    rw [if_pos (by push_cast; rw [abs_of_pos (by positivity)]; norm_num)]
    norm_num
  unfold ctxRound
  rw [if_neg (by push_cast; norm_num), hsig,
      show (ctxPrec cfg0 : ℤ) = 28 by norm_num [ctxPrec, cfg0],
      show ((10 : ℚ)) ^ ((28 : ℤ) - 31) = 1 / 1000 by norm_num]
  have hre : roundHalfEven ((((10 : ℤ) ^ 30 + 1 : ℤ) : ℚ) * (1 / 1000)) =
      10 ^ 27 := by
    unfold roundHalfEven
    rw [show (((10 : ℤ) ^ 30 + 1 : ℤ) : ℚ) * (1 / 1000) =
          ((10 : ℚ) ^ 30 + 1) * (1 / 1000) by push_cast; ring]
    rw [show ⌊((10 : ℚ) ^ 30 + 1) * (1 / 1000)⌋ = 10 ^ 27 from by norm_num]
    rw [if_pos (by push_cast; norm_num)]
  rw [hre]
  push_cast
  norm_num

/-- Value computation succeeds on `add 1 1` under the default
configuration. -/
theorem computeValue_add_one_one : computeValue pw0 cfg0 "add" 1 1 = .ok 2 := by
  have hc : ctxRound cfg0 (2 : ℚ) = (2 : ℚ) := by
    rw [show ((2 : ℚ)) = (((2 : ℤ)) : ℚ) by norm_num]
    exact ctxRound_intCast_of_lt cfg0 2 (by norm_num)
      (by norm_num [ctxPrec, cfg0])
  simp only [computeValue, show get_operation "add" = Except.ok Op.add from rfl,
    Op.apply]
  norm_num [hc]
  norm_num [Calculator.round, roundHalfUpInt, ctxPrec, cfg0]

/-- Value computation succeeds on `add 2 2` under the default
configuration. -/
theorem computeValue_add_two_two : computeValue pw0 cfg0 "add" 2 2 = .ok 4 := by
  have hc : ctxRound cfg0 (4 : ℚ) = (4 : ℚ) := by
    rw [show ((4 : ℚ)) = (((4 : ℤ)) : ℚ) by norm_num]
    exact ctxRound_intCast_of_lt cfg0 4 (by norm_num)
      (by norm_num [ctxPrec, cfg0])
  simp only [computeValue, show get_operation "add" = Except.ok Op.add from rfl,
    Op.apply]
  norm_num [hc]
  norm_num [Calculator.round, roundHalfUpInt, ctxPrec, cfg0]

/-!
Claim theorems.
-/

/-- C3: whenever `calculate(op_name, a, b)` fails — the operation name is
unknown, or `apply` or the final rounding raises — the engine's state is
unchanged (history, undo stack, redo stack exactly as before) and no
observer is notified: the exception propagates before any mutation. -/
theorem C3_failure_leaves_state_unchanged (pw : ℚ → ℚ → ℚ) (cfg : Config)
    (c : Calculator) (name : String) (a b : ℚ) (ts : Nat) (e : PyExc)
    (h : computeValue pw cfg name a b = .error e) :
    (calculate pw cfg c name a b ts).ret = .error e ∧
    (calculate pw cfg c name a b ts).state = c ∧
    (calculate pw cfg c name a b ts).notified = [] := by
  rw [calculate_error_frame pw cfg c name a b ts e h]
  exact ⟨rfl, rfl, rfl⟩

/-- C3 witness: an unknown operation name on a concrete engine
propagates `OperationError` and leaves everything unchanged. -/
theorem C3_failure_leaves_state_unchanged_witness :
    (calculate pw0 cfg0 cSub "does_not_exist" 1 1 0).ret =
        .error (.operationError ("Unknown operation " ++ "does_not_exist")) ∧
    (calculate pw0 cfg0 cSub "does_not_exist" 1 1 0).state = cSub ∧
    (calculate pw0 cfg0 cSub "does_not_exist" 1 1 0).notified = [] :=
  C3_failure_leaves_state_unchanged pw0 cfg0 cSub "does_not_exist" 1 1 0
    (.operationError ("Unknown operation " ++ "does_not_exist")) rfl

/-- C4: for every operand `a`, `calculate("divide", a, 0)` and
`calculate("int_divide", a, 0)` raise the typed operand-validation
error (`ValidationError`, the spec's `InvalidOperand`/`DivisionByZero`),
and `calculate("root", a, 0)` raises the typed operand-validation error
for a zero degree; all three errors belong to the calculator's typed
`CalculatorError` hierarchy, not to an untyped failure class. -/
theorem C4_zero_divisor_typed_errors (pw : ℚ → ℚ → ℚ) (cfg : Config)
    (c : Calculator) (a : ℚ) (ts : Nat) :
    ((calculate pw cfg c "divide" a 0 ts).ret =
        .error (.validationError "Division by zero is not allowed") ∧
      PyExc.isCalculatorError
        (.validationError "Division by zero is not allowed") = true) ∧
    ((calculate pw cfg c "int_divide" a 0 ts).ret =
        .error (.validationError "Division by zero is not allowed")) ∧
    ((calculate pw cfg c "root" a 0 ts).ret =
        .error (.validationError "Root degree cannot be zero") ∧
      PyExc.isCalculatorError
        (.validationError "Root degree cannot be zero") = true) := by
  rw [calculate_error_frame pw cfg c "divide" a 0 ts _
        (computeValue_divide_zero pw cfg a),
      calculate_error_frame pw cfg c "int_divide" a 0 ts _
        (computeValue_int_divide_zero pw cfg a),
      calculate_error_frame pw cfg c "root" a 0 ts _
        (computeValue_root_zero pw cfg a)]
  exact ⟨⟨rfl, rfl⟩, rfl, rfl, rfl⟩

/-- C9: `calculate("modulus", a, 0)` and `calculate("percent", a, 0)`
raise for every `a`, but the exceptions are the decimal module's
`InvalidOperation` / `DivisionByZero`, which are not part of the
calculator's typed `CalculatorError` hierarchy (so the REPL's
`except CalculatorError` handler does not catch them); the engine's
state is still unmutated and no observer is notified. -/
theorem C9_decimal_errors_escape_taxonomy (pw : ℚ → ℚ → ℚ) (cfg : Config)
    (c : Calculator) (a : ℚ) (ts : Nat) :
    ((calculate pw cfg c "modulus" a 0 ts).ret = .error .decInvalidOperation ∧
      (calculate pw cfg c "modulus" a 0 ts).state = c ∧
      (calculate pw cfg c "modulus" a 0 ts).notified = [] ∧
      PyExc.isCalculatorError .decInvalidOperation = false) ∧
    ((calculate pw cfg c "percent" a 0 ts).ret =
        .error (if a = 0 then .decInvalidOperation else .decDivisionByZero) ∧
      (calculate pw cfg c "percent" a 0 ts).state = c ∧
      (calculate pw cfg c "percent" a 0 ts).notified = [] ∧
      PyExc.isCalculatorError
        (if a = 0 then .decInvalidOperation else .decDivisionByZero) = false) := by
  rw [calculate_error_frame pw cfg c "modulus" a 0 ts _
        (computeValue_modulus_zero pw cfg a),
      calculate_error_frame pw cfg c "percent" a 0 ts _
        (computeValue_percent_zero pw cfg a)]
  refine ⟨⟨rfl, rfl, rfl, rfl⟩, rfl, rfl, rfl, ?_⟩
  by_cases h : a = 0 <;> simp [h, PyExc.isCalculatorError]

/-- C10: `undo()` and `redo()` never dispatch observer notifications
(no log line, no auto-save persistence), regardless of outcome, and the
observer registry is untouched — the only fields they may change are the
history log and the two snapshot stacks. -/
theorem C10_undo_redo_dispatch_nothing (c : Calculator) :
    (undo c).2.2 = [] ∧ (redo c).2.2 = [] ∧
    (undo c).2.1.observers = c.observers ∧
    (redo c).2.1.observers = c.observers := by
  unfold undo redo
  cases hu : c.undoStack <;> cases hr : c.redoStack <;> simp

/-- C8 counterexample: loading from a non-existent path does not leave
the engine's history empty — on an engine with prior history, the
history after the load is the prior one, not the empty sequence. -/
theorem C8_load_missing_counterexample :
    (loadHistory none cPrior).history ≠ [] := by
  simp [loadHistory, cPrior]

/-- C8 (amended): loading history from a path that does not exist is not
an error and leaves the engine completely unchanged — in particular, on
a fresh engine the history is (still) the empty sequence of records. -/
theorem C8_load_missing_is_noop (c : Calculator) :
    loadHistory none c = c ∧ (loadHistory none (newCalculator [])).history = [] :=
  ⟨rfl, rfl⟩

/-- C7: for every non-empty history, `clear()` followed immediately by
`undo()` restores the history to exactly its pre-clear content (same
records, same order), and `clear()` dispatches no observer notification —
hence it never triggers the auto-save persistence write, whatever
observers are registered. -/
theorem C7_clear_undo_roundtrip (c : Calculator) (h : c.history ≠ []) :
    (clear c).2 = [] ∧
    (undo (clear c).1).1 = true ∧
    (undo (clear c).1).2.1.history = c.history := by
  unfold clear
  rw [if_neg h]
  exact ⟨rfl, rfl, rfl⟩

/-- C7 witness: the concrete one-record engine round-trips through
clear-then-undo with no notification. -/
theorem C7_clear_undo_roundtrip_witness :
    (clear cSub).2 = [] ∧
    (undo (clear cSub).1).1 = true ∧
    (undo (clear cSub).1).2.1.history = cSub.history :=
  C7_clear_undo_roundtrip cSub (by simp [cSub])

/-- C1: the claim (two successful undos followed by redo, redo: the
second redo also succeeds and round-trips) FAILS on this code.  After
`calculate("add",1,1)`, `calculate("add",2,2)`, `undo()`, `undo()`, the
first `redo()` succeeds, but it re-pushes the pre-redo snapshot through
`CalculatorCaretaker.push_undo`, which clears the remaining redo
entries; therefore the second `redo()` returns `false` and the history
stays at one record instead of round-tripping back to two.  This
contradicts the spec (whose section 9 calls this variant a latent bug)
and the repository's own test `test_multi_step_undo_redo`, which
asserts five redos succeed after five undos. -/
theorem C1_second_redo_fails :
    undoStep1.1 = true ∧ undoStep2.1 = true ∧ redoStep1.1 = true ∧
    redoStep2.1 = false ∧
    redoStep1.2.1.history.length = 1 ∧ redoStep1.2.1.redoStack = [] ∧
    calcStepB.state.history.length = 2 := by
  have hA : calcStepA.state =
      ⟨[⟨"add", 1, 1, 2, 0⟩], [[]], [], []⟩ := by
    unfold calcStepA
    rw [calculate_ok_eq pw0 cfg0 (newCalculator []) "add" 1 1 0 2
      computeValue_add_one_one]
    simp [newCalculator, trimIf, cfg0]
  have hB : calcStepB.state =
      ⟨[⟨"add", 1, 1, 2, 0⟩, ⟨"add", 2, 2, 4, 1⟩],
       [[⟨"add", 1, 1, 2, 0⟩], []], [], []⟩ := by
    unfold calcStepB
    rw [hA, calculate_ok_eq pw0 cfg0 _ "add" 2 2 1 4 computeValue_add_two_two]
    simp [trimIf, cfg0]
  have hU1 : undoStep1 =
      (true, ⟨[⟨"add", 1, 1, 2, 0⟩], [[]],
              [[⟨"add", 1, 1, 2, 0⟩, ⟨"add", 2, 2, 4, 1⟩]], []⟩, []) := by
    unfold undoStep1
    rw [hB]
    rfl
  have hU2 : undoStep2 =
      (true, ⟨[], [],
              [[⟨"add", 1, 1, 2, 0⟩],
               [⟨"add", 1, 1, 2, 0⟩, ⟨"add", 2, 2, 4, 1⟩]], []⟩, []) := by
    unfold undoStep2
    rw [hU1]
    rfl
  have hR1 : redoStep1 =
      (true, ⟨[⟨"add", 1, 1, 2, 0⟩], [[]], [], []⟩, []) := by
    unfold redoStep1
    rw [hU2]
    rfl
  have hR2 : redoStep2 = (false, ⟨[⟨"add", 1, 1, 2, 0⟩], [[]], [], []⟩, []) := by
    unfold redoStep2
    rw [hR1]
    rfl
  rw [hU1, hU2, hR1, hR2, hB]
  exact ⟨rfl, rfl, rfl, rfl, rfl, rfl, rfl⟩

/-- C2: a registered observer whose `update` raises an arbitrary
exception does not affect `calculate` on valid inputs: the rounded
result is still returned, the new record is still appended to the
history, every observer — in particular each one registered after the
failing one — still has its `update` invoked, and the observer's
exception is recorded at the dispatch boundary, never propagated to the
caller. -/
theorem C2_observer_failure_isolated (pw : ℚ → ℚ → ℚ) (cfg : Config)
    (c : Calculator) (name : String) (a b : ℚ) (ts : Nat) (v : ℚ)
    (hv : computeValue pw cfg name a b = .ok v)
    (hmax : 0 < cfg.maxHistorySize)
    (pre post : List Observer) (bad : Observer) (e : PyExc)
    (hobs : c.observers = pre ++ bad :: post)
    (hbad : bad.update ⟨name, a, b, v, ts⟩ = .error e) :
    (calculate pw cfg c name a b ts).ret = .ok v ∧
    (∃ rest, (calculate pw cfg c name a b ts).state.history =
        rest ++ [⟨name, a, b, v, ts⟩]) ∧
    (calculate pw cfg c name a b ts).notified =
      pre.map (fun o => o.update ⟨name, a, b, v, ts⟩)
        ++ .error e :: post.map (fun o => o.update ⟨name, a, b, v, ts⟩) := by
  rw [calculate_ok_eq pw cfg c name a b ts v hv]
  refine ⟨rfl, ?_, ?_⟩
  · unfold trimIf
    by_cases hlen :
        (c.history ++ [(⟨name, a, b, v, ts⟩ : HistoryItem)]).length >
          cfg.maxHistorySize
    · rw [if_pos hlen]
      have hone : 1 ≤ c.history.length := by
        rw [List.length_append] at hlen
        simp at hlen
        omega
      exact ⟨c.history.drop 1, List.drop_append_of_le_length hone⟩
    · rw [if_neg hlen]
      exact ⟨c.history, rfl⟩
  · simp [notifyAll, hobs, hbad]

/-- C2 witness: the always-failing observer of the repository test,
registered on a fresh engine, with `add 1 1`. -/
theorem C2_observer_failure_isolated_witness :
    (calculate pw0 cfg0 cBad "add" 1 1 0).ret = .ok 2 ∧
    (∃ rest, (calculate pw0 cfg0 cBad "add" 1 1 0).state.history =
        rest ++ [⟨"add", 1, 1, 2, 0⟩]) ∧
    (calculate pw0 cfg0 cBad "add" 1 1 0).notified =
      [.error (.runtimeError "boom")] :=
  C2_observer_failure_isolated pw0 cfg0 cBad "add" 1 1 0 2
    computeValue_add_one_one (by decide) [] [] badObs (.runtimeError "boom")
    rfl rfl

/-- Refinement of the spec's exact mathematical results by the source's
`Op.apply`: wherever the spec's exact value is a rational number and the
decimal context computes it exactly (`ctxExactOn`), `apply` returns
exactly that value. -/
theorem apply_refines_spec (pw : ℚ → ℚ → ℚ) (cfg : Config) (op : Op)
    (a b v : ℚ) (h : specExactResult op a b = some v)
    (hex : ctxExactOn cfg op a b) :
    Op.apply pw cfg op a b = .ok v := by
  cases op with
  | add =>
      simp only [specExactResult, Option.some.injEq] at h
      simp only [ctxExactOn] at hex
      rw [h] at hex
      simp [Op.apply, h, hex]
  | subtract =>
      simp only [specExactResult, Option.some.injEq] at h
      simp only [ctxExactOn] at hex
      rw [h] at hex
      simp [Op.apply, h, hex]
  | multiply =>
      simp only [specExactResult, Option.some.injEq] at h
      simp only [ctxExactOn] at hex
      rw [h] at hex
      simp [Op.apply, h, hex]
  | divide =>
      simp only [specExactResult] at h
      simp only [ctxExactOn] at hex
      split at h
      · exact absurd h (by simp)
      · rename_i hb
        simp only [Option.some.injEq] at h
        rw [h] at hex
        simp [Op.apply, hb, h, hex]
  | power =>
      simp only [specExactResult] at h
      simp only [ctxExactOn] at hex
      split at h
      · rename_i hc
        obtain ⟨hden, hz⟩ := hc
        simp only [Option.some.injEq] at h
        by_cases ha : a = 0
        · have hnum : 0 < b.num := by
            rcases hz with ha2 | hnum
            · exact absurd ha ha2
            · exact hnum
          have h1 : ¬ b.num = 0 := by omega
          have h2 : ¬ b.num < 0 := by omega
          have h3 : (0 : ℚ) ^ b.num = 0 := zero_zpow b.num h1
          simp [Op.apply, decPow, hden, ha, h1, h2, ← h, h3]
        · rw [h] at hex
          simp [Op.apply, decPow, hden, ha, h, hex]
      · exact absurd h (by simp)
  | root => simp [specExactResult] at h
  | modulus =>
      simp only [specExactResult] at h
      simp only [ctxExactOn] at hex
      split at h
      · exact absurd h (by simp)
      · rename_i hb
        simp only [Option.some.injEq] at h
        rw [show Op.apply pw cfg .modulus a b =
              (if b = 0 then .error .decInvalidOperation
               else if 10 ^ ctxPrec cfg ≤ (truncQ (a / b)).natAbs then
                 .error .decInvalidOperation
               else .ok (a - b * (truncQ (a / b) : ℚ))) from rfl,
            if_neg hb, if_neg (not_le.mpr hex), h]
  | int_divide =>
      simp only [specExactResult] at h
      simp only [ctxExactOn] at hex
      split at h
      · exact absurd h (by simp)
      · rename_i hb
        simp only [Option.some.injEq] at h
        rw [show Op.apply pw cfg .int_divide a b =
              (if b = 0 then
                 .error (.validationError "Division by zero is not allowed")
               else if 10 ^ ctxPrec cfg ≤ (truncQ (a / b)).natAbs then
                 .error .decInvalidOperation
               else .ok ((truncQ (a / b) : ℚ))) from rfl,
            if_neg hb, if_neg (not_le.mpr hex), h]
  | percent =>
      simp only [specExactResult] at h
      simp only [ctxExactOn] at hex
      obtain ⟨hex1, hex2⟩ := hex
      split at h
      · exact absurd h (by simp)
      · rename_i hb
        simp only [Option.some.injEq] at h
        rw [h] at hex2
        simp [Op.apply, hb, hex1, h, hex2]
  | abs_diff =>
      simp only [specExactResult, Option.some.injEq] at h
      simp only [ctxExactOn] at hex
      simp [Op.apply, hex, h]

/-- C5 (amended): for every valid operation name and operand pair whose
exact mathematical result is a rational number (all operations except
`root` and fractional-exponent `power`, whose raw results are the power
primitive's approximation), whose decimal-context computation is exact —
each context-rounded intermediate is unchanged by rounding to the
context's `max(precision + 2, 28)` significant digits, and for
`int_divide`/`modulus` the integer quotient fits in that many digits
(`ctxExactOn`) — and whose half-up-rounded result also fits within the
context precision, `calculate` returns exactly the exact mathematical
result rounded half-up once, after the raw operation, to the configured
number of fractional digits.  Outside these conditions the context's
own rounding makes the returned value deviate from the exactly-rounded
value (double rounding), or a `decimal.InvalidOperation` replaces the
value altogether, as in the counterexample. -/
theorem C5_round_half_up_once (pw : ℚ → ℚ → ℚ) (cfg : Config)
    (c : Calculator) (name : String) (op : Op) (a b : ℚ) (ts : Nat) (v : ℚ)
    (hop : get_operation name = .ok op)
    (hv : specExactResult op a b = some v)
    (hex : ctxExactOn cfg op a b)
    (hfit : (roundHalfUpInt cfg.precision v).natAbs < 10 ^ ctxPrec cfg) :
    (calculate pw cfg c name a b ts).ret = .ok (roundHalfUp cfg.precision v) := by
  have happ := apply_refines_spec pw cfg op a b v hv hex
  have hround : Calculator.round cfg v = .ok (roundHalfUp cfg.precision v) := by
    simp only [Calculator.round]
    rw [if_neg (not_le.mpr hfit)]
    rfl
  have hcv : computeValue pw cfg name a b = .ok (roundHalfUp cfg.precision v) := by
    unfold computeValue
    rw [hop]
    simp only [happ, hround]
  rw [calculate_ok_eq pw cfg c name a b ts _ hcv]

/-- C5 witness: `add 2 3` under the default configuration returns
`roundHalfUp 4 5` (= 5.0000). -/
theorem C5_round_half_up_once_witness :
    (calculate pw0 cfg0 (newCalculator []) "add" 2 3 0).ret =
      .ok (roundHalfUp cfg0.precision 5) :=
  C5_round_half_up_once pw0 cfg0 (newCalculator []) "add" .add 2 3 0 5 rfl
    (by norm_num [specExactResult])
    (by
      show ctxRound cfg0 ((2 : ℚ) + 3) = (2 : ℚ) + 3
      rw [show ((2 : ℚ) + 3) = (((5 : ℤ)) : ℚ) by norm_num]
      exact ctxRound_intCast_of_lt cfg0 5 (by norm_num)
        (by norm_num [ctxPrec, cfg0]))
    (by norm_num [roundHalfUpInt, ctxPrec, cfg0])

/-- C5 counterexample to the claim as stated: `add` is a valid operation
name and `(10 ^ 30, 1)` a pair of numeric operands, yet `calculate`
returns no value at all — the context addition rounds `10 ^ 30 + 1` to
`10 ^ 30` (28 significant digits), and the final `quantize` then raises
`decimal.InvalidOperation` because the half-up-rounded result needs 35
significant digits, more than the context's 28 — so the returned value
cannot equal the exact mathematical result rounded half-up. -/
theorem C5_exact_rounding_counterexample :
    get_operation "add" = .ok .add ∧
    (calculate pw0 cfg0 (newCalculator []) "add" (10 ^ 30) 1 0).ret =
      .error .decInvalidOperation := by
  refine ⟨rfl, ?_⟩
  have h : computeValue pw0 cfg0 "add" (10 ^ 30) 1 = .error .decInvalidOperation := by
    simp only [computeValue, show get_operation "add" = Except.ok Op.add from rfl,
      Op.apply]
    norm_num [ctxRound_pow30]
    norm_num [Calculator.round, roundHalfUpInt, ctxPrec, cfg0]
  rw [calculate_error_frame pw0 cfg0 _ "add" (10 ^ 30) 1 0 _ h]

/-- History of the outcome state of a successful `calculate`: the old
history with the new record appended, capped. -/
theorem calculate_ok_history (pw : ℚ → ℚ → ℚ) (cfg : Config)
    (c : Calculator) (name : String) (a b : ℚ) (ts : Nat) (v : ℚ)
    (h : computeValue pw cfg name a b = .ok v) :
    (calculate pw cfg c name a b ts).state.history =
      trimIf cfg (c.history ++ [⟨name, a, b, v, ts⟩]) := by
  rw [calculate_ok_eq pw cfg c name a b ts v h]

/-- Unrolling a run of `calculate` calls from the right. -/
theorem runAll_concat (pw : ℚ → ℚ → ℚ) (cfg : Config) (c : Calculator)
    (l : List CalcInput) (i : CalcInput) :
    runAll pw cfg c (l ++ [i]) =
      (calculate pw cfg (runAll pw cfg c l) i.name i.a i.b i.ts).state := by
  induction l generalizing c with
  | nil => rfl
  | cons j rest ih =>
      simp only [List.cons_append, runAll]
      exact ih _

/-- Appending one record to a capped history keeps only the most recent
`maxHistorySize` records of the extended sequence. -/
theorem trim_snoc (cfg : Config) (A : List HistoryItem) (x : HistoryItem) :
    trimIf cfg (A.drop (A.length - cfg.maxHistorySize) ++ [x]) =
      (A ++ [x]).drop (A.length + 1 - cfg.maxHistorySize) := by
  unfold trimIf
  by_cases hm : A.length < cfg.maxHistorySize
  · rw [Nat.sub_eq_zero_of_le (Nat.le_of_lt hm), List.drop_zero,
       Nat.sub_eq_zero_of_le hm, List.drop_zero]
    rw [if_neg (by rw [List.length_append, List.length_singleton]; omega)]
  · by_cases h0 : cfg.maxHistorySize = 0
    · have hR : (A ++ [x]).drop (A.length + 1 - cfg.maxHistorySize) = [] :=
        List.drop_eq_nil_of_le
          (by rw [List.length_append, List.length_singleton]; omega)
      have hd : A.length - cfg.maxHistorySize = A.length := by omega
      rw [hd, List.drop_length, hR]
      rw [if_pos (by simp [h0])]
      simp
    · have h1 : 1 ≤ cfg.maxHistorySize := by omega
      have hml : cfg.maxHistorySize ≤ A.length := by omega
      have hLd : (A.drop (A.length - cfg.maxHistorySize)).length =
          cfg.maxHistorySize := by
        rw [List.length_drop]
        omega
      rw [if_pos (by rw [List.length_append, hLd]; simp)]
      rw [List.drop_append_of_le_length (by rw [hLd]; omega),
          List.drop_drop,
          List.drop_append_of_le_length (by omega)]
      congr 1
      congr 1
      omega

/-- After a run of successful `calculate` calls on a fresh engine, the
history is the most recent `maxHistorySize`-suffix of the produced
records, in chronological order. -/
theorem runAll_history (pw : ℚ → ℚ → ℚ) (cfg : Config)
    (obs : List Observer) (l : List CalcInput)
    (hok : ∀ i ∈ l, (computeValue pw cfg i.name i.a i.b).isOk = true) :
    (runAll pw cfg (newCalculator obs) l).history =
      (l.map (mkItem pw cfg)).drop (l.length - cfg.maxHistorySize) := by
  induction l using List.reverseRecOn with
  | nil => simp [runAll, newCalculator]
  | append_singleton l i ih =>
      have hok2 : ∀ j ∈ l, (computeValue pw cfg j.name j.a j.b).isOk = true :=
        fun j hj => hok j (List.mem_append_left _ hj)
      have hoki : (computeValue pw cfg i.name i.a i.b).isOk = true :=
        hok i (List.mem_append_right _ (List.mem_singleton_self i))
      obtain ⟨v, hv⟩ : ∃ v, computeValue pw cfg i.name i.a i.b = .ok v := by
        cases hcv : computeValue pw cfg i.name i.a i.b with
        | ok v => exact ⟨v, rfl⟩
        | error e => rw [hcv] at hoki; simp [Except.isOk, Except.toBool] at hoki
      rw [runAll_concat,
          calculate_ok_history pw cfg _ i.name i.a i.b i.ts v hv,
          ih hok2]
      have hitem : (⟨i.name, i.a, i.b, v, i.ts⟩ : HistoryItem) =
          mkItem pw cfg i := by
        simp [mkItem, hv, Except.toOption]
      rw [hitem]
      have ht := trim_snoc cfg (l.map (mkItem pw cfg)) (mkItem pw cfg i)
      rw [List.length_map] at ht
      rw [ht]
      simp [List.map_append]

/-- C6: after any sequence of `N` successful `calculate` calls on a
fresh engine, the history has length `min N max_history_size`, and the
records present are the most recent `max_history_size` ones in
chronological order — the oldest were evicted first. -/
theorem C6_history_bounded (pw : ℚ → ℚ → ℚ) (cfg : Config)
    (obs : List Observer) (l : List CalcInput)
    (hok : ∀ i ∈ l, (computeValue pw cfg i.name i.a i.b).isOk = true) :
    (runAll pw cfg (newCalculator obs) l).history =
        (l.map (mkItem pw cfg)).drop (l.length - cfg.maxHistorySize) ∧
    (runAll pw cfg (newCalculator obs) l).history.length =
        min l.length cfg.maxHistorySize := by
  have h := runAll_history pw cfg obs l hok
  refine ⟨h, ?_⟩
  rw [h, List.length_drop, List.length_map]
  omega

/-- C6 witness: the two-call sequence on the default configuration. -/
theorem C6_history_bounded_witness :
    (runAll pw0 cfg0 (newCalculator []) inputs2).history =
        (inputs2.map (mkItem pw0 cfg0)).drop
          (inputs2.length - cfg0.maxHistorySize) ∧
    (runAll pw0 cfg0 (newCalculator []) inputs2).history.length =
        min inputs2.length cfg0.maxHistorySize :=
  C6_history_bounded pw0 cfg0 [] inputs2 (by
    intro i hi
    simp only [inputs2, List.mem_cons, List.not_mem_nil, or_false] at hi
    rcases hi with rfl | rfl
    · show (computeValue pw0 cfg0 "add" 1 1).isOk = true
      rw [computeValue_add_one_one]
      rfl
    · show (computeValue pw0 cfg0 "add" 2 2).isOk = true
      rw [computeValue_add_two_two]
      rfl)

end EnhancedCalc
